import Mathlib

/-!
Shallow embedding of the accounting repository core: typed ids and versions,
the permission model, the query algebra, the permission-checked collection
facade, and the storage-backend operations (compare-and-swap update, group
change, SQL leaf-query translation and SQL statement sequencing).

Machine integers (u64 ids and versions, i32 levels) are modelled as Nat or
Int; only equality and order on them matter to the embedded code, so no
wrap-around arithmetic occurs. Decimal amounts are modelled as rationals.
-/

namespace Accounting

/-- u64 identifier value (`Id<T>` erased to its raw value). -/
abbrev ObjId := Nat

/-- Source `Id<Group>` raw value. -/
abbrev GroupId := Nat

/-- Source `Id<User>` raw value. -/
abbrev UserId := Nat

/-- Source `Id<Account>` raw value. -/
abbrev AccountId := Nat

/-- Source `Version`: opaque u64 token, equality is its only meaningful relation. -/
abbrev Version := Nat

/-- Source `Amount` wraps a decimal number; only order and equality matter here,
so it is modelled as a rational. -/
abbrev Amount := Rat

/-- Source `Amount::ZERO`. -/
def Amount.ZERO : Amount := 0

/-- Source `Date` wraps `time::Date`, a totally ordered value (Julian day number). -/
abbrev Date := Int

/-- The error taxonomy of `error.rs` (`Error`); the `backend` constructor
stands for `Error::Backend(_)` with its opaque cause dropped. -/
inductive Err where
  | transactionGroup
  | notFound
  | unauthorized
  | conflictingEdit
  | backend
deriving DecidableEq

/-- Source `AccessLevel`: `None < Read < Write`. -/
inductive AccessLevel where
  | none
  | read
  | write
deriving DecidableEq

/-- Numeric value of an access level (`repr(u8)` discriminant). -/
def AccessLevel.toNat : AccessLevel → Nat
  | .none => 0
  | .read => 1
  | .write => 2

instance : LT AccessLevel := ⟨fun a b => a.toNat < b.toNat⟩

instance : LE AccessLevel := ⟨fun a b => a.toNat ≤ b.toNat⟩

instance (a b : AccessLevel) : Decidable (a < b) :=
  inferInstanceAs (Decidable (a.toNat < b.toNat))

instance (a b : AccessLevel) : Decidable (a ≤ b) :=
  inferInstanceAs (Decidable (a.toNat ≤ b.toNat))

/-- Source `Permissions`: explicit per-user levels plus a group default.
The `Map` wrapper around `BTreeMap` is modelled as an association list. -/
structure Permissions where
  users : List (UserId × AccessLevel)
  default : AccessLevel

/-- Source `Permissions::get`: the explicit mapping entry if present, else the
group default (`self.users.get(&id).copied().unwrap_or(self.default)`). -/
def Permissions.get (p : Permissions) (id : UserId) : AccessLevel :=
  (p.users.lookup id).getD p.default

/-- Source `Group`: a name and its permissions. -/
structure Group where
  name : String
  permissions : Permissions

/-- Source `Versioned<T>`: id, version and payload. -/
structure Versioned (T : Type) where
  id : ObjId
  version : Version
  object : T

/-- Source `WithGroup<T>`: owning group and payload. -/
structure WithGroup (T : Type) where
  group : GroupId
  object : T

/-- Source `SimpleQuery<T>`: one optional bound per comparator, all conjoined. -/
structure SimpleQuery (T : Type) where
  eq : Option T := Option.none
  ne : Option T := Option.none
  gt : Option T := Option.none
  ge : Option T := Option.none
  lt : Option T := Option.none
  le : Option T := Option.none
  in_ : Option (List T) := Option.none
  nin : Option (List T) := Option.none

/-- The empty `SimpleQuery` (`Default::default()`): no bounds at all. -/
def SimpleQuery.empty {T : Type} : SimpleQuery T := {}

/-- Source `SimpleQuery::matches` (query.rs lines 267 to 299): conjunction of the
present bounds, each absent bound contributing `true`. -/
def SimpleQuery.matches {T : Type} [LinearOrder T] (q : SimpleQuery T) (x : T) : Bool :=
  ((q.eq.map fun v => decide (x = v)).getD true)
    && ((q.ne.map fun v => decide (x ≠ v)).getD true)
    && ((q.gt.map fun v => decide (x > v)).getD true)
    && ((q.ge.map fun v => decide (x ≥ v)).getD true)
    && ((q.lt.map fun v => decide (x < v)).getD true)
    && ((q.le.map fun v => decide (x ≤ v)).getD true)
    && ((q.in_.map fun vs => vs.any fun v => decide (x = v)).getD true)
    && ((q.nin.map fun vs => !(vs.any fun v => decide (x = v))).getD true)

/-- Source `BooleanExpr<T>` (boolean.rs): recursive Value / Not / Any / All tree. -/
inductive BooleanExpr (T : Type) where
  | Value (v : T)
  | Not (e : BooleanExpr T)
  | Any (es : List (BooleanExpr T))
  | All (es : List (BooleanExpr T))

/-- Source `BooleanExpr::and` (boolean.rs lines 14 to 26): smart conjunction that
flattens adjacent `All` nodes; match arms in source order. -/
def BooleanExpr.and {T : Type} : BooleanExpr T → BooleanExpr T → BooleanExpr T
  | .All a, .All b => .All (a ++ b)
  | .All a, other => .All (a ++ [other])
  | other, .All a => .All (a ++ [other])
  | a, b => .All [a, b]

/-- Source `BooleanExpr::or` (boolean.rs lines 28 to 40): smart disjunction that
flattens adjacent `Any` nodes. -/
def BooleanExpr.or {T : Type} : BooleanExpr T → BooleanExpr T → BooleanExpr T
  | .Any a, .Any b => .Any (a ++ b)
  | .Any a, other => .Any (a ++ [other])
  | other, .Any a => .Any (a ++ [other])
  | a, b => .Any [a, b]

/-- Source `impl Not for BooleanExpr` (boolean.rs lines 84 to 93): strips one
leading `Not` if present, otherwise wraps in `Not`. -/
def BooleanExpr.not {T : Type} : BooleanExpr T → BooleanExpr T
  | .Not a => a
  | a => .Not a

mutual

/-- Modelled from the spec: `matches(object)` recursive evaluation of a
`BooleanExpr` (the construction lives in boolean.rs but its evaluator is in
code of the repository outside src); `All` is universal quantification and
`Any` existential quantification over the children, `Not` is negation, and
a leaf is evaluated by the leaf predicate `f`. -/
def BooleanExpr.eval {T : Type} (f : T → Bool) : BooleanExpr T → Bool
  | .Value v => f v
  | .Not e => !(BooleanExpr.eval f e)
  | .Any es => BooleanExpr.evalAny f es
  | .All es => BooleanExpr.evalAll f es

/-- Disjunction of the evaluations of a list of expressions. -/
def BooleanExpr.evalAny {T : Type} (f : T → Bool) : List (BooleanExpr T) → Bool
  | [] => false
  | e :: es => BooleanExpr.eval f e || BooleanExpr.evalAny f es

/-- Conjunction of the evaluations of a list of expressions. -/
def BooleanExpr.evalAll {T : Type} (f : T → Bool) : List (BooleanExpr T) → Bool
  | [] => true
  | e :: es => BooleanExpr.eval f e && BooleanExpr.evalAll f es

end

/-- Source `Transaction` (transaction.rs): date, description, and a map from
account id to amount, modelled as an association list. -/
structure Transaction where
  date : Date
  description : String
  amounts : List (AccountId × Amount)

/-- Source `TransactionQuery` (transaction.rs lines 24 to 31). -/
structure TransactionQuery where
  date : Option (SimpleQuery Date) := Option.none
  description : Option (SimpleQuery String) := Option.none
  account : Option (List AccountId) := Option.none
  account_amount : Option (AccountId × SimpleQuery Amount) := Option.none

/-- Source `TransactionQuery::matches` (transaction.rs lines 34 to 60): conjunction
of the present clauses; the `account_amount` clause evaluates its amount
query against the entry for the account, defaulting to `Amount::ZERO` when
the transaction has no entry for that account. -/
def TransactionQuery.matches (q : TransactionQuery) (t : Transaction) : Bool :=
  ((q.date.map fun sq => sq.matches t.date).getD true)
    && ((q.description.map fun sq => sq.matches t.description).getD true)
    && ((q.account.map fun accounts =>
          accounts.any fun a => (t.amounts.lookup a).isSome).getD true)
    && ((q.account_amount.map fun p =>
          p.2.matches ((t.amounts.lookup p.1).getD Amount.ZERO)).getD true)

/-- Source `GroupQuery<T>` (query.rs lines 335 to 338): either a group filter or an
entity-specific query, here abstracted over the entity query type `Q`. -/
inductive GroupQuery (Q : Type) where
  | group (groups : List GroupId)
  | other (q : Q)

/-- Source `GroupQuery::matches` (query.rs lines 344 to 349), with the entity query
semantics supplied as `qm`. -/
def GroupQuery.matches {Q T : Type} (qm : Q → T → Bool) :
    GroupQuery Q → WithGroup T → Bool
  | .group groups, obj => groups.contains obj.group
  | .other q, obj => qm q obj.object

/-- In-memory state of one storage collection: the stored documents, each a
`WithGroup<Versioned<T>>` keyed by its inner id (as in the document store,
where `_id`, `_version` and `_group` live inside one document). -/
abbrev CollState (T : Type) := List (WithGroup (Versioned T))

/-- Backend `Collection::get`: find the document with the given id
(`find_one(query_id(id))`). -/
def collGet {T : Type} (s : CollState T) (id : ObjId) :
    Option (WithGroup (Versioned T)) :=
  s.find? fun e => e.object.id == id

/-- Replace the first element satisfying `p` by its image under `f`
(`update_one` semantics: at most one document is modified). -/
def updateFirst {α : Type} (p : α → Bool) (f : α → α) : List α → List α
  | [] => []
  | x :: xs => if p x then f x :: xs else x :: updateFirst p f xs

/-- Backend `Collection::update` (collection.rs contract; MongoDbCollection
lines 46 to 77 and SqlCollection lines 113 to 152): compare-and-swap on
(id, version). The conditional write matches a document by id AND version
and replaces its payload, storing the freshly minted version `mint`; if
nothing matched, a second lookup by id alone distinguishes ConflictingEdit
(id still present) from NotFound. -/
def collUpdate {T : Type} (mint : Version) (s : CollState T) (v : Versioned T) :
    CollState T × Except Err Unit :=
  if (s.find? fun e => e.object.id == v.id && e.object.version == v.version).isSome then
    (updateFirst (fun e => e.object.id == v.id && e.object.version == v.version)
      (fun e => ⟨e.group, ⟨v.id, mint, v.object⟩⟩) s,
     .ok ())
  else
    match s.find? (fun e => e.object.id == v.id) with
    | some _ => (s, .error .conflictingEdit)
    | Option.none => (s, .error .notFound)

/-- Backend `Collection::change_group` (MongoDbCollection lines 87 to 99 and
SqlCollection lines 154 to 170): unconditionally set the group and a freshly
minted version on the document with the given id; succeeds even if no
document matched. -/
def collChangeGroup {T : Type} (mint : Version) (s : CollState T) (id : ObjId)
    (newGroup : GroupId) : CollState T × Except Err Unit :=
  (updateFirst (fun e => e.object.id == id)
    (fun e => ⟨newGroup, ⟨e.object.id, mint, e.object.object⟩⟩) s,
   .ok ())

/-- Backend `Collection::query_count` (collection.rs lines 35 to 38: count
the number of objects matching all the queries). -/
def collQueryCount {T Q : Type} (s : CollState T) (qm : Q → T → Bool)
    (queries : List (GroupQuery Q)) : Nat :=
  (s.filter fun e =>
    queries.all fun q => GroupQuery.matches qm q ⟨e.group, e.object.object⟩).length

/-- Source `Result<Option<T>, E>::transpose`. -/
def exceptTranspose {E A : Type} : Except E (Option A) → Option (Except E A)
  | .error e => some (.error e)
  | .ok Option.none => Option.none
  | .ok (some a) => some (.ok a)

/-- Source `Result::map_err`. -/
def exceptMapError {E F A : Type} (f : E → F) : Except E A → Except F A
  | .error e => .error (f e)
  | .ok a => .ok a

/-- Source `Backend::get_group_permsissions` (backend.rs lines 31 to 46), with the
result of the groups-collection lookup passed in as `r` so that backend
errors can be injected: `groups.get(group).transpose().unwrap_or(Err(
NotFound)).map_err(|_| Unauthorized)?.object.object.permissions.get(user)`.
The logging side effect is dropped. -/
def getGroupPermsissions (currentUser : UserId)
    (r : Except Err (Option (WithGroup (Versioned Group)))) :
    Except Err AccessLevel :=
  match exceptMapError (fun _ => Err.unauthorized)
      (((exceptTranspose r).getD (.error .notFound))) with
  | .error e => .error e
  | .ok g => .ok (g.object.object.permissions.get currentUser)

/-- The facade (`Backend`) restricted to one entity collection: the current
user, the groups collection, and the collection of objects of type `T`. -/
structure Backend (T : Type) where
  currentUser : UserId
  groups : CollState Group
  objects : CollState T

/-- Source `Backend::get_group_permsissions` applied to the in-memory groups
collection (never returns a raw backend error here). -/
def Backend.groupPerms {T : Type} (b : Backend T) (g : GroupId) :
    Except Err AccessLevel :=
  getGroupPermsissions b.currentUser (.ok (collGet b.groups g))

/-- Source `Backend::get_group_of` (backend.rs lines 48 to 57): the owning group of
the object with the given id, or NotFound. -/
def Backend.getGroupOf {T : Type} (b : Backend T) (id : ObjId) :
    Except Err GroupId :=
  match collGet b.objects id with
  | Option.none => .error .notFound
  | some e => .ok e.group

/-- Facade `get` (backend.rs lines 104 to 115): look up, and if found
require at least Read access on the owning group. -/
def Backend.get {T : Type} (b : Backend T) (id : ObjId) :
    Except Err (Option (WithGroup (Versioned T))) :=
  match collGet b.objects id with
  | some obj =>
    match b.groupPerms obj.group with
    | .error e => .error e
    | .ok lvl =>
      if lvl < AccessLevel.read then .error .unauthorized else .ok (some obj)
  | Option.none => .ok Option.none

/-- Facade `update` (backend.rs lines 120 to 128): resolve the current
owning group, require at least Write access on it, then delegate the
compare-and-swap update. Returns the resulting objects state alongside the
result; the state is unchanged on every error path. -/
def Backend.update {T : Type} (mint : Version) (b : Backend T)
    (v : Versioned T) : CollState T × Except Err Unit :=
  match b.getGroupOf v.id with
  | .error e => (b.objects, .error e)
  | .ok group =>
    match b.groupPerms group with
    | .error e => (b.objects, .error e)
    | .ok lvl =>
      if lvl < AccessLevel.write then (b.objects, .error .unauthorized)
      else collUpdate mint b.objects v

/-- Facade `change_group` (backend.rs lines 142 to 154): resolve the current
owning group, require at least Write access on both the old and the new
group (short-circuit, as in the source `||`), then delegate the group
update that also rotates the version. -/
def Backend.change_group {T : Type} (mint : Version) (b : Backend T)
    (id : ObjId) (newGroup : GroupId) : CollState T × Except Err Unit :=
  match b.getGroupOf id with
  | .error e => (b.objects, .error e)
  | .ok oldGroup =>
    match b.groupPerms oldGroup with
    | .error e => (b.objects, .error e)
    | .ok lvl1 =>
      if lvl1 < AccessLevel.write then (b.objects, .error .unauthorized)
      else
        match b.groupPerms newGroup with
        | .error e => (b.objects, .error e)
        | .ok lvl2 =>
          if lvl2 < AccessLevel.write then (b.objects, .error .unauthorized)
          else collChangeGroup mint b.objects id newGroup

/-- Facade `query_count` (backend.rs lines 156 to 162): delegates directly
to the collection with no permission filtering (the `TODO: filter by
permissions` in the source). -/
def Backend.query_count {T Q : Type} (b : Backend T) (qm : Q → T → Bool)
    (queries : List (GroupQuery Q)) : Except Err Nat :=
  .ok (collQueryCount b.objects qm queries)

/-- One SQL condition emitted for a leaf bound: a scalar comparison
`column OP value` or an array comparison `column OP (array)`. The operator
is kept as the literal string the source writes into the query. -/
inductive SqlCond (T : Type) where
  | val (op : String) (v : T)
  | vec (op : String) (vs : List T)

/-- Source `push_simple_query` (query_index.rs lines 154 to 201): the list of SQL
conditions emitted for one `SimpleQuery` leaf, in source order. Each present
bound is rendered with the operator string the source passes to
`push_value_query` or `push_vec_query`; note the source passes the string
for less-or-equal for the `ge` bound. -/
def pushSimpleQuery {T : Type} (q : SimpleQuery T) : List (SqlCond T) :=
  (q.eq.toList.map fun v => SqlCond.val "=" v)
    ++ (q.ne.toList.map fun v => SqlCond.val "<>" v)
    ++ (q.lt.toList.map fun v => SqlCond.val "<" v)
    ++ (q.le.toList.map fun v => SqlCond.val "<=" v)
    ++ (q.gt.toList.map fun v => SqlCond.val ">" v)
    ++ (q.ge.toList.map fun v => SqlCond.val "<=" v)
    ++ (q.in_.toList.map fun vs => SqlCond.vec "= ANY" vs)
    ++ (q.nin.toList.map fun vs => SqlCond.vec "<> ALL" vs)

/-- SQL evaluation of one emitted condition against a row value `x`:
standard semantics of the comparison operators of the target database on a
totally ordered column type; an unknown operator yields false. -/
def SqlCond.holds {T : Type} [LinearOrder T] (x : T) : SqlCond T → Bool
  | .val op v =>
    if op = "=" then decide (x = v)
    else if op = "<>" then decide (x ≠ v)
    else if op = "<" then decide (x < v)
    else if op = "<=" then decide (x ≤ v)
    else if op = ">" then decide (x > v)
    else if op = ">=" then decide (x ≥ v)
    else false
  | .vec op vs =>
    if op = "= ANY" then vs.any fun v => decide (x = v)
    else if op = "<> ALL" then vs.all fun v => decide (x ≠ v)
    else false

/-- Whether a row value satisfies the compiled form of a `SimpleQuery` leaf:
all emitted conditions are joined with AND in the WHERE clause. -/
def sqlLeafMatches {T : Type} [LinearOrder T] (q : SimpleQuery T) (x : T) : Bool :=
  (pushSimpleQuery q).all (SqlCond.holds x)

/-- A SQL statement touching the primary `resources` table or the index
side tables, with index rows abstracted to a row type `R`. -/
inductive SqlStmt (T R : Type) where
  | insertResource (id : ObjId) (version : Version) (group : GroupId) (payload : T)
  | deleteResource (id : ObjId)
  | insertIndexRows (id : ObjId) (rows : List R)
  | deleteIndexRows (id : ObjId)

/-- The relational database state: the `resources` table and the index side
tables (all index rows keyed by owning object id). -/
structure SqlDb (T R : Type) where
  resources : List (ObjId × Version × GroupId × T)
  indexRows : List (ObjId × R)

/-- The empty database. -/
def SqlDb.empty {T R : Type} : SqlDb T R := ⟨[], []⟩

/-- Effect of one SQL statement on the database state. -/
def applyStmt {T R : Type} (db : SqlDb T R) : SqlStmt T R → SqlDb T R
  | .insertResource id version group payload =>
    { db with resources := (id, version, group, payload) :: db.resources }
  | .deleteResource id =>
    { db with resources := db.resources.filter fun r => !(r.1 == id) }
  | .insertIndexRows id rows =>
    { db with indexRows := (rows.map fun r => (id, r)) ++ db.indexRows }
  | .deleteIndexRows id =>
    { db with indexRows := db.indexRows.filter fun r => !(r.1 == id) }

/-- Effect of one atomic transactional unit (a list of statements that
commit together). -/
def applyUnit {T R : Type} (db : SqlDb T R) (unit : List (SqlStmt T R)) : SqlDb T R :=
  unit.foldl applyStmt db

/-- State reached after the first `k` transactional units have committed: a
crash between units leaves exactly such a state. -/
def runUnitsUpTo {T R : Type} (db : SqlDb T R) (units : List (List (SqlStmt T R)))
    (k : Nat) : SqlDb T R :=
  (units.take k).foldl applyUnit db

/-- Source `SqlCollection::create` (lib.rs lines 71 to 89) as its sequence of
transactional units: the single `INSERT INTO resources` statement is
executed directly on the connection pool (its own implicit transaction),
and only afterwards does `insert_object_indexes` (lib.rs lines 34 to 43)
open a separate transaction for the index rows (`index` abstracts
`object.index()`). -/
def sqlCreateUnits {T R : Type} (index : T → List R) (id : ObjId)
    (version : Version) (group : GroupId) (object : T) :
    List (List (SqlStmt T R)) :=
  [[.insertResource id version group object],
   [.insertIndexRows id (index object)]]

/-- Source `SqlCollection::delete` (lib.rs lines 102 to 111) as its sequence of
transactional units: the `DELETE from resources` statement executed on the
pool, then `remove_object_indexes` (lib.rs lines 56 to 63) in its own
separate transaction. -/
def sqlDeleteUnits {T R : Type} (id : ObjId) : List (List (SqlStmt T R)) :=
  [[.deleteResource id], [.deleteIndexRows id]]

/-- Fixture: a group whose permissions give user 1 Write and default Read. -/
def grpRW : Group := ⟨"accounting", ⟨[(1, .write)], .read⟩⟩

/-- Fixture: a group with no explicit entries and default None. -/
def grpNone : Group := ⟨"locked", ⟨[], .none⟩⟩

/-- Fixture: groups collection holding `grpRW` under group id 10. -/
def gsA : CollState Group := [⟨0, ⟨10, 0, grpRW⟩⟩]

/-- Fixture: groups collection holding `grpNone` under group id 10. -/
def gsB : CollState Group := [⟨0, ⟨10, 0, grpNone⟩⟩]

/-- Fixture: groups collection holding `grpRW` under id 10 and `grpNone`
under id 11. -/
def gsC : CollState Group := [⟨0, ⟨10, 0, grpRW⟩⟩, ⟨0, ⟨11, 0, grpNone⟩⟩]

/-- Fixture: an object collection over Nat payloads: one object with id 5,
version 77, payload 42, owned by group 10. -/
def objsA : CollState Nat := [⟨10, ⟨5, 77, 42⟩⟩]

/-! Helper lemmas. -/

theorem AccessLevel.not_lt_iff (a b : AccessLevel) : (¬ a < b) ↔ b ≤ a :=
  Nat.not_lt

theorem optBound_getD_true_iff {α : Type} (o : Option α) (f : α → Bool) :
    ((o.map f).getD true) = true ↔ ∀ v, o = some v → f v = true := by
  cases o <;> simp

theorem find?_of_stronger {α : Type} (s : List α) (p q : α → Bool) (e : α)
    (hfirst : s.find? q = some e) (hpe : p e = true)
    (himp : ∀ x, p x = true → q x = true) : s.find? p = some e := by
  induction s with
  | nil => simp at hfirst
  | cons h t ih =>
    cases hqh : q h with
    | true =>
      simp only [List.find?_cons, hqh] at hfirst
      cases hfirst
      simp only [List.find?_cons, hpe]
    | false =>
      simp only [List.find?_cons, hqh] at hfirst
      have hph : p h = false := by
        cases hp : p h with
        | true => rw [himp h hp] at hqh; cases hqh
        | false => rfl
      simp only [List.find?_cons, hph]
      exact ih hfirst

theorem find?_none_of_stronger {α : Type} (s : List α) (p q : α → Bool)
    (hnone : s.find? q = Option.none) (himp : ∀ x, p x = true → q x = true) :
    s.find? p = Option.none := by
  rw [List.find?_eq_none] at hnone ⊢
  intro x hx hpx
  exact hnone x hx (himp x hpx)

theorem find?_key_unique {α : Type} (key : α → Nat) (k : Nat) (s : List α) (e : α)
    (hnd : (s.map key).Nodup) (hfind : s.find? (fun x => key x == k) = some e) :
    ∀ x ∈ s, key x = k → x = e := by
  induction s with
  | nil => simp at hfind
  | cons h t ih =>
    simp only [List.map_cons, List.nodup_cons] at hnd
    intro x hx hkey
    cases hkh : (key h == k) with
    | true =>
      simp only [List.find?_cons, hkh] at hfind
      cases hfind
      rcases List.mem_cons.mp hx with hxe | hxt
      · exact hxe
      · exfalso
        have hhk : key e = k := by simpa using hkh
        exact hnd.1 (by rw [hhk, ← hkey]; exact List.mem_map_of_mem key hxt)
    | false =>
      simp only [List.find?_cons, hkh] at hfind
      rcases List.mem_cons.mp hx with hxe | hxt
      · exfalso
        rw [hxe] at hkey
        rw [hkey] at hkh
        simp at hkh
      · exact ih hnd.2 hfind x hxt hkey

theorem updateFirst_find? {α : Type} (p q : α → Bool) (f : α → α) (s : List α) (e : α)
    (hq : s.find? q = some e) (hpe : p e = true)
    (himp : ∀ x, p x = true → q x = true) (hqf : q (f e) = true) :
    (updateFirst p f s).find? q = some (f e) := by
  induction s with
  | nil => simp at hq
  | cons h t ih =>
    cases hqh : q h with
    | true =>
      simp only [List.find?_cons, hqh] at hq
      cases hq
      rw [updateFirst, if_pos hpe]
      simp only [List.find?_cons, hqf]
    | false =>
      simp only [List.find?_cons, hqh] at hq
      have hph : p h = false := by
        cases hp : p h with
        | true => rw [himp h hp] at hqh; cases hqh
        | false => rfl
      rw [updateFirst, if_neg (by simp [hph])]
      simp only [List.find?_cons, hqh]
      exact ih hq

theorem evalAll_append {T : Type} (f : T → Bool) (xs ys : List (BooleanExpr T)) :
    BooleanExpr.evalAll f (xs ++ ys)
      = (BooleanExpr.evalAll f xs && BooleanExpr.evalAll f ys) := by
  induction xs with
  | nil => simp [BooleanExpr.evalAll]
  | cons x xs ih => simp [BooleanExpr.evalAll, ih, Bool.and_assoc]

theorem evalAny_append {T : Type} (f : T → Bool) (xs ys : List (BooleanExpr T)) :
    BooleanExpr.evalAny f (xs ++ ys)
      = (BooleanExpr.evalAny f xs || BooleanExpr.evalAny f ys) := by
  induction xs with
  | nil => simp [BooleanExpr.evalAny]
  | cons x xs ih => simp [BooleanExpr.evalAny, ih, Bool.or_assoc]

theorem eval_and {T : Type} (f : T → Bool) (a b : BooleanExpr T) :
    (a.and b).eval f = (a.eval f && b.eval f) := by
  cases a <;> cases b <;>
    simp [BooleanExpr.and, BooleanExpr.eval, BooleanExpr.evalAll, evalAll_append,
      Bool.and_comm]

theorem eval_or {T : Type} (f : T → Bool) (a b : BooleanExpr T) :
    (a.or b).eval f = (a.eval f || b.eval f) := by
  cases a <;> cases b <;>
    simp [BooleanExpr.or, BooleanExpr.eval, BooleanExpr.evalAny, evalAny_append,
      Bool.or_comm]

theorem eval_not {T : Type} (f : T → Bool) (x : BooleanExpr T) :
    x.not.eval f = !(x.eval f) := by
  cases x <;> simp [BooleanExpr.not, BooleanExpr.eval]

/-! Claim theorems. -/

/-- C2: the facade permission lookup fails closed: a lookup error or a
missing group yields Unauthorized (never a Backend or NotFound error), and
a found group yields that group Permissions entry for the current user,
which is the explicit per-user entry when present and the group default
otherwise. -/
theorem getGroupPermsissions_fails_closed (u : UserId)
    (r : Except Err (Option (WithGroup (Versioned Group)))) :
    ((∃ e, r = .error e) → getGroupPermsissions u r = .error .unauthorized) ∧
    (r = .ok Option.none → getGroupPermsissions u r = .error .unauthorized) ∧
    (∀ g, r = .ok (some g) →
      getGroupPermsissions u r = .ok (g.object.object.permissions.get u)) ∧
    (∀ (p : Permissions) (uid : UserId) (lvl : AccessLevel),
      p.users.lookup uid = some lvl → p.get uid = lvl) ∧
    (∀ (p : Permissions) (uid : UserId),
      p.users.lookup uid = Option.none → p.get uid = p.default) := by
  refine ⟨?_, ?_, ?_, ?_, ?_⟩
  · rintro ⟨e, rfl⟩; rfl
  · rintro rfl; rfl
  · rintro g rfl; rfl
  · intro p uid lvl h
    simp [Permissions.get, h]
  · intro p uid h
    simp [Permissions.get, h]

/-- Witness for C2 at concrete inputs: an injected backend error and a
missing group both map to Unauthorized, and a found group yields the
per-user entry. -/
theorem getGroupPermsissions_fails_closed_witness :
    getGroupPermsissions 1 (.error .backend) = .error .unauthorized ∧
    getGroupPermsissions 1 (.ok Option.none) = .error .unauthorized ∧
    getGroupPermsissions 1 (.ok (some ⟨0, ⟨10, 0, grpRW⟩⟩)) = .ok .write := by
  refine ⟨?_, ?_, ?_⟩
  · exact (getGroupPermsissions_fails_closed 1 (.error .backend)).1 ⟨.backend, rfl⟩
  · exact (getGroupPermsissions_fails_closed 1 (.ok Option.none)).2.1 rfl
  · exact (getGroupPermsissions_fails_closed 1
      (.ok (some ⟨0, ⟨10, 0, grpRW⟩⟩))).2.2.1 _ rfl

/-- C8: `SimpleQuery::matches` is the conjunction of its present bounds,
an empty query matches everything, and the query with ge 5 and lt 10
matches 7 but neither 10 nor 4. -/
theorem simpleQuery_matches_is_conjunction {T : Type} [LinearOrder T]
    (q : SimpleQuery T) (x : T) :
    (q.matches x = true ↔
      ((∀ v, q.eq = some v → x = v) ∧ (∀ v, q.ne = some v → x ≠ v) ∧
       (∀ v, q.gt = some v → x > v) ∧ (∀ v, q.ge = some v → x ≥ v) ∧
       (∀ v, q.lt = some v → x < v) ∧ (∀ v, q.le = some v → x ≤ v) ∧
       (∀ vs, q.in_ = some vs → x ∈ vs) ∧ (∀ vs, q.nin = some vs → x ∉ vs))) ∧
    (SimpleQuery.matches {ge := some 5, lt := some 10} (7 : Nat) = true) ∧
    (SimpleQuery.matches {ge := some 5, lt := some 10} (10 : Nat) = false) ∧
    (SimpleQuery.matches {ge := some 5, lt := some 10} (4 : Nat) = false) ∧
    (∀ y : Nat, SimpleQuery.matches SimpleQuery.empty y = true) := by
  refine ⟨?_, by decide, by decide, by decide, ?_⟩
  · simp only [SimpleQuery.matches, Bool.and_eq_true, optBound_getD_true_iff]
    constructor
    · rintro ⟨⟨⟨⟨⟨⟨⟨h1, h2⟩, h3⟩, h4⟩, h5⟩, h6⟩, h7⟩, h8⟩
      refine ⟨?_, ?_, ?_, ?_, ?_, ?_, ?_, ?_⟩
      · intro v hv; simpa using h1 v hv
      · intro v hv; simpa using h2 v hv
      · intro v hv; simpa using h3 v hv
      · intro v hv; simpa using h4 v hv
      · intro v hv; simpa using h5 v hv
      · intro v hv; simpa using h6 v hv
      · intro vs hvs; simpa using h7 vs hvs
      · intro vs hvs hmem
        have hall : ∀ v ∈ vs, ¬ x = v := by simpa using h8 vs hvs
        exact hall x hmem rfl
    · rintro ⟨h1, h2, h3, h4, h5, h6, h7, h8⟩
      refine ⟨⟨⟨⟨⟨⟨⟨?_, ?_⟩, ?_⟩, ?_⟩, ?_⟩, ?_⟩, ?_⟩, ?_⟩
      · intro v hv; simpa using h1 v hv
      · intro v hv; simpa using h2 v hv
      · intro v hv; simpa using h3 v hv
      · intro v hv; simpa using h4 v hv
      · intro v hv; simpa using h5 v hv
      · intro v hv; simpa using h6 v hv
      · intro vs hvs; simpa using h7 vs hvs
      · intro vs hvs
        simp only [Bool.not_eq_true']
        cases hany : vs.any fun v => decide (x = v) with
        | true =>
          exfalso
          rcases List.any_eq_true.mp hany with ⟨v, hv, hxv⟩
          have hxv2 : x = v := by simpa using hxv
          exact h8 vs hvs (hxv2 ▸ hv)
        | false => rfl
  · intro y
    simp [SimpleQuery.matches, SimpleQuery.empty]

/-- Witness for C8 at a concrete instance: the conjunction reading of the
ge 5 and lt 10 query at 7. -/
theorem simpleQuery_matches_is_conjunction_witness :
    SimpleQuery.matches {ge := some 5, lt := some 10} (7 : Nat) = true :=
  (simpleQuery_matches_is_conjunction (SimpleQuery.empty (T := Nat)) 0).2.1

/-- C9: the facade query_count counts exactly the stored objects matching
the conjunction of the given clauses, with no restriction by the caller:
two callers with different users and group tables get the same count. -/
theorem query_count_ignores_permissions {T Q : Type} (qm : Q → T → Bool)
    (queries : List (GroupQuery Q)) (u1 u2 : UserId)
    (gs1 gs2 : CollState Group) (objs : CollState T) :
    Backend.query_count ⟨u1, gs1, objs⟩ qm queries
        = Backend.query_count ⟨u2, gs2, objs⟩ qm queries ∧
    Backend.query_count ⟨u1, gs1, objs⟩ qm queries
        = .ok ((objs.filter fun e =>
            queries.all fun q =>
              GroupQuery.matches qm q ⟨e.group, e.object.object⟩).length) :=
  ⟨rfl, rfl⟩

/-- C10: the account_amount clause of `TransactionQuery::matches` tests the
amount query against the amount entry for the account, with missing entries
read as `Amount::ZERO`; a query satisfied by zero therefore matches
transactions with no entry for that account. -/
theorem transactionQuery_account_amount_defaults_zero (q : TransactionQuery)
    (t : Transaction) (a : AccountId) (sq : SimpleQuery Amount)
    (h : q.account_amount = some (a, sq)) :
    (q.matches t = true ↔
      (TransactionQuery.matches {q with account_amount := Option.none} t = true ∧
       sq.matches ((t.amounts.lookup a).getD Amount.ZERO) = true)) ∧
    (t.amounts.lookup a = Option.none →
      (q.matches t = true ↔
        (TransactionQuery.matches {q with account_amount := Option.none} t = true ∧
         sq.matches Amount.ZERO = true))) := by
  constructor
  · simp [TransactionQuery.matches, h, Bool.and_eq_true, and_assoc]
  · intro hnone
    simp [TransactionQuery.matches, h, hnone, Bool.and_eq_true, and_assoc]

/-- Witness for C10: a query requiring amount at most zero for account 3
matches a transaction with no entry for account 3 at all. -/
theorem transactionQuery_account_amount_defaults_zero_witness :
    TransactionQuery.matches
      {account_amount := some (3, {le := some 0})} ⟨0, "x", []⟩ = true := by
  refine ((transactionQuery_account_amount_defaults_zero
    {account_amount := some (3, {le := some 0})} ⟨0, "x", []⟩ 3 {le := some 0}
    rfl).2 rfl).mpr ⟨?_, ?_⟩
  · simp [TransactionQuery.matches]
  · simp [SimpleQuery.matches, Amount.ZERO]

/-- C7 counterexample: the claim `not(not(x)) yields x unchanged` fails for
the doubly negated input `Not(Not(Value 0))`: the first `not` strips one
`Not`, the second strips the other, leaving `Value 0`. -/
theorem booleanExpr_not_not_counterexample :
    BooleanExpr.not (BooleanExpr.not
        (BooleanExpr.Not (BooleanExpr.Not (BooleanExpr.Value (0 : Nat))))) =
      BooleanExpr.Value 0 ∧
    BooleanExpr.Value (0 : Nat)
      ≠ BooleanExpr.Not (BooleanExpr.Not (BooleanExpr.Value 0)) := by
  exact ⟨rfl, fun h => by cases h⟩

/-- C7 amended: `and` flattens adjacent `All` nodes into one flat `All` and
`or` flattens adjacent `Any` nodes into one flat `Any`; `not(not(x)) = x`
for every x that is not itself a double negation, while for `x = Not(Not y)`
the two `not` applications strip down to `y`; all three constructions
preserve the truth value under recursive evaluation, and `and` and `or` are
idempotent with respect to that evaluation. -/
theorem booleanExpr_construction_normalizes {T : Type} (f : T → Bool) :
    (∀ xs ys : List (BooleanExpr T),
      (BooleanExpr.All xs).and (BooleanExpr.All ys) = BooleanExpr.All (xs ++ ys)) ∧
    (∀ xs ys : List (BooleanExpr T),
      (BooleanExpr.Any xs).or (BooleanExpr.Any ys) = BooleanExpr.Any (xs ++ ys)) ∧
    (∀ x : BooleanExpr T,
      (∀ y, x ≠ BooleanExpr.Not (BooleanExpr.Not y)) → x.not.not = x) ∧
    (∀ y : BooleanExpr T,
      (BooleanExpr.Not (BooleanExpr.Not y)).not.not = y) ∧
    (∀ a b : BooleanExpr T, (a.and b).eval f = (a.eval f && b.eval f)) ∧
    (∀ a b : BooleanExpr T, (a.or b).eval f = (a.eval f || b.eval f)) ∧
    (∀ x : BooleanExpr T, x.not.eval f = !(x.eval f)) ∧
    (∀ x : BooleanExpr T, (x.and x).eval f = x.eval f) ∧
    (∀ x : BooleanExpr T, (x.or x).eval f = x.eval f) := by
  refine ⟨fun xs ys => rfl, fun xs ys => rfl, ?_, ?_, eval_and f, eval_or f,
    eval_not f, ?_, ?_⟩
  · intro x hx
    match x with
    | .Value v => rfl
    | .Any es => rfl
    | .All es => rfl
    | .Not a =>
      match a with
      | .Value v => rfl
      | .Any es => rfl
      | .All es => rfl
      | .Not b => exact absurd rfl (hx b)
  · intro y
    match y with
    | .Value v => rfl
    | .Any es => rfl
    | .All es => rfl
    | .Not b => rfl
  · intro x
    rw [eval_and, Bool.and_self]
  · intro x
    rw [eval_or, Bool.or_self]

/-- Witness for C7 amended: flattening at concrete lists, double-negation
collapse at a concrete non-negated expression, and evaluation preservation
at concrete inputs. -/
theorem booleanExpr_construction_normalizes_witness :
    (BooleanExpr.All [BooleanExpr.Value true]).and
        (BooleanExpr.All [BooleanExpr.Value false])
      = BooleanExpr.All [BooleanExpr.Value true, BooleanExpr.Value false] ∧
    (BooleanExpr.Value true).not.not = BooleanExpr.Value true := by
  constructor
  · exact (booleanExpr_construction_normalizes (id : Bool → Bool)).1
      [BooleanExpr.Value true] [BooleanExpr.Value false]
  · exact (booleanExpr_construction_normalizes (id : Bool → Bool)).2.2.1
      (BooleanExpr.Value true) (fun y h => by cases h)

/-- C4 (code bug): the SQL rendering of a `SimpleQuery` leaf sends the `ge`
bound to the SQL operator for less-or-equal, so the compiled filter for
`ge 5` accepts 3 and rejects 7, the exact opposite of the in-memory
`matches` reference on the same inputs; the compiled form therefore selects
a different subset than `matches`. -/
theorem pushSimpleQuery_ge_diverges :
    SimpleQuery.matches {ge := some (5 : Int)} 7 = true ∧
    sqlLeafMatches {ge := some (5 : Int)} 7 = false ∧
    SimpleQuery.matches {ge := some (5 : Int)} 3 = false ∧
    sqlLeafMatches {ge := some (5 : Int)} 3 = true ∧
    pushSimpleQuery {ge := some (5 : Int)} = [SqlCond.val "<=" 5] := by
  refine ⟨by decide, by decide, by decide, by decide, rfl⟩

/-- C5 (code bug): `SqlCollection::create` runs as two separate
transactional units, not one: the primary resources insert commits on the
connection pool before the index transaction begins. After the first unit
commits, the resources row exists while its index rows do not, a reachable
divergent state; symmetrically, after the first unit of `delete`, the
resources row is gone while its index rows remain. -/
theorem sqlCreate_not_atomic :
    (sqlCreateUnits (fun n => [n]) 1 7 2 (5 : Nat)).length = 2 ∧
    (runUnitsUpTo SqlDb.empty (sqlCreateUnits (fun n => [n]) 1 7 2 (5 : Nat)) 1).resources
      = [(1, 7, 2, 5)] ∧
    (runUnitsUpTo SqlDb.empty (sqlCreateUnits (fun n => [n]) 1 7 2 (5 : Nat)) 1).indexRows
      = [] ∧
    (runUnitsUpTo SqlDb.empty (sqlCreateUnits (fun n => [n]) 1 7 2 (5 : Nat)) 2).indexRows
      = [(1, 5)] ∧
    (runUnitsUpTo
      (runUnitsUpTo SqlDb.empty (sqlCreateUnits (fun n => [n]) 1 7 2 (5 : Nat)) 2)
      (sqlDeleteUnits 1) 1).resources = [] ∧
    (runUnitsUpTo
      (runUnitsUpTo SqlDb.empty (sqlCreateUnits (fun n => [n]) 1 7 2 (5 : Nat)) 2)
      (sqlDeleteUnits 1) 1).indexRows = [(1, 5)] := by
  refine ⟨rfl, rfl, rfl, rfl, rfl, rfl⟩

/-- C3: if the lookup finds the object, the facade get returns it exactly
when the caller holds at least Read on the owning group and fails
Unauthorized when the level is strictly below Read; if the lookup finds
nothing, get returns Ok(None) for every caller and group table, with no
permission check performed. -/
theorem facade_get_requires_read {T : Type} (b : Backend T) (id : ObjId) :
    (∀ obj, collGet b.objects id = some obj →
      ∀ gentry, collGet b.groups obj.group = some gentry →
        ((AccessLevel.read ≤ gentry.object.object.permissions.get b.currentUser →
            Backend.get b id = .ok (some obj)) ∧
         (gentry.object.object.permissions.get b.currentUser < AccessLevel.read →
            Backend.get b id = .error .unauthorized))) ∧
    (collGet b.objects id = Option.none →
      ∀ (u2 : UserId) (gs2 : CollState Group),
        Backend.get ⟨u2, gs2, b.objects⟩ id = .ok Option.none) := by
  constructor
  · intro obj hobj gentry hgentry
    have hperm : b.groupPerms obj.group
        = .ok (gentry.object.object.permissions.get b.currentUser) := by
      unfold Backend.groupPerms
      rw [hgentry]
      rfl
    constructor
    · intro hr
      simp only [Backend.get, hobj, hperm]
      rw [if_neg ((AccessLevel.not_lt_iff _ _).mpr hr)]
    · intro hr
      simp only [Backend.get, hobj, hperm]
      rw [if_pos hr]
  · intro hnone u2 gs2
    simp only [Backend.get, hnone]

/-- Witness for C3: user 2 (group default Read) reads the stored object;
with the permissions replaced by a default-None group the same read fails
Unauthorized; and on a missing id the result is Ok(None). -/
theorem facade_get_requires_read_witness :
    Backend.get (⟨2, gsA, objsA⟩ : Backend Nat) 5 = .ok (some ⟨10, ⟨5, 77, 42⟩⟩) ∧
    Backend.get (⟨2, gsB, objsA⟩ : Backend Nat) 5 = .error .unauthorized ∧
    Backend.get (⟨2, gsA, objsA⟩ : Backend Nat) 6 = .ok Option.none := by
  refine ⟨?_, ?_, ?_⟩
  · exact ((facade_get_requires_read (⟨2, gsA, objsA⟩ : Backend Nat) 5).1
      ⟨10, ⟨5, 77, 42⟩⟩ rfl ⟨0, ⟨10, 0, grpRW⟩⟩ rfl).1 (by decide)
  · exact ((facade_get_requires_read (⟨2, gsB, objsA⟩ : Backend Nat) 5).1
      ⟨10, ⟨5, 77, 42⟩⟩ rfl ⟨0, ⟨10, 0, grpNone⟩⟩ rfl).2 (by decide)
  · exact (facade_get_requires_read (⟨2, gsA, objsA⟩ : Backend Nat) 6).2 rfl 2 gsA

/-- C1: for an update by a user with Write access to the owning group of
the stored object, the update succeeds exactly when the supplied version
equals the stored one; on success the stored payload is replaced and the
freshly minted version is stored; on a version mismatch with the id still
present the result is ConflictingEdit, and on a missing id it is NotFound. -/
theorem facade_update_cas {T : Type} (mint : Version) (b : Backend T)
    (v : Versioned T) (hnd : (b.objects.map fun e => e.object.id).Nodup) :
    (∀ e, collGet b.objects v.id = some e →
      ∀ gentry, collGet b.groups e.group = some gentry →
        AccessLevel.write ≤ gentry.object.object.permissions.get b.currentUser →
        (((Backend.update mint b v).2 = .ok ()) ↔ v.version = e.object.version) ∧
        (v.version = e.object.version →
          collGet (Backend.update mint b v).1 v.id
            = some ⟨e.group, ⟨v.id, mint, v.object⟩⟩) ∧
        (v.version ≠ e.object.version →
          Backend.update mint b v = (b.objects, .error .conflictingEdit))) ∧
    (collGet b.objects v.id = Option.none →
      Backend.update mint b v = (b.objects, .error .notFound)) := by
  constructor
  · intro e he gentry hg hw
    have hgo : b.getGroupOf v.id = .ok e.group := by
      unfold Backend.getGroupOf
      rw [he]
    have hperm : b.groupPerms e.group
        = .ok (gentry.object.object.permissions.get b.currentUser) := by
      unfold Backend.groupPerms
      rw [hg]
      rfl
    have hupd : Backend.update mint b v = collUpdate mint b.objects v := by
      simp only [Backend.update, hgo, hperm]
      rw [if_neg ((AccessLevel.not_lt_iff _ _).mpr hw)]
    have he2 : b.objects.find? (fun x => x.object.id == v.id) = some e := he
    have heid : e.object.id = v.id := by simpa using List.find?_some he2
    have himp : ∀ x : WithGroup (Versioned T),
        (x.object.id == v.id && x.object.version == v.version) = true →
        (x.object.id == v.id) = true :=
      fun x hx => ((Bool.and_eq_true _ _).mp hx).1
    by_cases hv : v.version = e.object.version
    · have hfe : (e.object.id == v.id && e.object.version == v.version) = true := by
        simp [heid, hv]
      have hres : Backend.update mint b v =
          (updateFirst (fun x => x.object.id == v.id && x.object.version == v.version)
            (fun x => ⟨x.group, ⟨v.id, mint, v.object⟩⟩) b.objects, .ok ()) := by
        rw [hupd]
        unfold collUpdate
        rw [find?_of_stronger b.objects _ _ e he2 hfe himp]
        rfl
      refine ⟨⟨fun _ => hv, fun _ => by rw [hres]⟩, fun _ => ?_, fun hne => absurd hv hne⟩
      have hfind := updateFirst_find?
        (fun x => x.object.id == v.id && x.object.version == v.version)
        (fun x => x.object.id == v.id)
        (fun x => ⟨x.group, ⟨v.id, mint, v.object⟩⟩) b.objects e he2 hfe himp (by simp)
      rw [hres]
      exact hfind
    · have hfullnone : b.objects.find?
          (fun x => x.object.id == v.id && x.object.version == v.version)
            = Option.none := by
        rw [List.find?_eq_none]
        intro x hx hfx
        obtain ⟨hid, hver⟩ := (Bool.and_eq_true _ _).mp hfx
        have hxe : x = e :=
          find?_key_unique (fun x : WithGroup (Versioned T) => x.object.id)
            v.id b.objects e hnd he2 x hx (by simpa using hid)
        rw [hxe] at hver
        exact hv (Eq.symm (by simpa using hver))
      have hres : Backend.update mint b v = (b.objects, .error .conflictingEdit) := by
        rw [hupd]
        unfold collUpdate
        rw [hfullnone, he2]
        rfl
      refine ⟨⟨fun h => ?_, fun h => absurd h hv⟩, fun h => absurd h hv, fun _ => hres⟩
      rw [hres] at h
      cases h
  · intro hnone
    simp only [Backend.update, Backend.getGroupOf, hnone]

/-- Witness for C1: user 1 (explicit Write) updates the stored object with
the matching version 77 and succeeds, the new state holding the minted
version 99 and payload 100; retrying with the stale version 77 after the
version moved to 99 fails ConflictingEdit; an unknown id fails NotFound. -/
theorem facade_update_cas_witness :
    (Backend.update 99 (⟨1, gsA, objsA⟩ : Backend Nat) ⟨5, 77, 100⟩).2 = .ok () ∧
    collGet (Backend.update 99 (⟨1, gsA, objsA⟩ : Backend Nat) ⟨5, 77, 100⟩).1 5
      = some ⟨10, ⟨5, 99, 100⟩⟩ ∧
    Backend.update 98 (⟨1, gsA, [⟨10, ⟨5, 99, 100⟩⟩]⟩ : Backend Nat) ⟨5, 77, 101⟩
      = ([⟨10, ⟨5, 99, 100⟩⟩], .error .conflictingEdit) ∧
    Backend.update 98 (⟨1, gsA, objsA⟩ : Backend Nat) ⟨6, 77, 101⟩
      = (objsA, .error .notFound) := by
  refine ⟨?_, ?_, ?_, ?_⟩
  · exact (((facade_update_cas 99 (⟨1, gsA, objsA⟩ : Backend Nat) ⟨5, 77, 100⟩
      (by decide)).1 ⟨10, ⟨5, 77, 42⟩⟩ rfl ⟨0, ⟨10, 0, grpRW⟩⟩ rfl
      (by decide)).1).mpr rfl
  · exact ((facade_update_cas 99 (⟨1, gsA, objsA⟩ : Backend Nat) ⟨5, 77, 100⟩
      (by decide)).1 ⟨10, ⟨5, 77, 42⟩⟩ rfl ⟨0, ⟨10, 0, grpRW⟩⟩ rfl
      (by decide)).2.1 rfl
  · exact ((facade_update_cas 98 (⟨1, gsA, [⟨10, ⟨5, 99, 100⟩⟩]⟩ : Backend Nat)
      ⟨5, 77, 101⟩ (by decide)).1 ⟨10, ⟨5, 99, 100⟩⟩ rfl ⟨0, ⟨10, 0, grpRW⟩⟩ rfl
      (by decide)).2.2 (by decide)
  · exact (facade_update_cas 98 (⟨1, gsA, objsA⟩ : Backend Nat) ⟨6, 77, 101⟩
      (by decide)).2 rfl

/-- C6: change_group fails Unauthorized and leaves the stored state exactly
unchanged when the caller lacks Write on either the current or the target
group; with Write on both, the delegated group update stores the new group
and rotates the version while keeping the payload. -/
theorem facade_change_group_requires_write {T : Type} (mint : Version)
    (b : Backend T) (id : ObjId) (g2 : GroupId) (e : WithGroup (Versioned T))
    (g1entry g2entry : WithGroup (Versioned Group))
    (he : collGet b.objects id = some e)
    (hg1 : collGet b.groups e.group = some g1entry)
    (hg2 : collGet b.groups g2 = some g2entry) :
    ((g1entry.object.object.permissions.get b.currentUser < AccessLevel.write ∨
      g2entry.object.object.permissions.get b.currentUser < AccessLevel.write) →
      Backend.change_group mint b id g2 = (b.objects, .error .unauthorized)) ∧
    (AccessLevel.write ≤ g1entry.object.object.permissions.get b.currentUser →
     AccessLevel.write ≤ g2entry.object.object.permissions.get b.currentUser →
      ((Backend.change_group mint b id g2).2 = .ok () ∧
       collGet (Backend.change_group mint b id g2).1 id
         = some ⟨g2, ⟨id, mint, e.object.object⟩⟩)) := by
  have hgo : b.getGroupOf id = .ok e.group := by
    unfold Backend.getGroupOf
    rw [he]
  have hperm1 : b.groupPerms e.group
      = .ok (g1entry.object.object.permissions.get b.currentUser) := by
    unfold Backend.groupPerms
    rw [hg1]
    rfl
  have hperm2 : b.groupPerms g2
      = .ok (g2entry.object.object.permissions.get b.currentUser) := by
    unfold Backend.groupPerms
    rw [hg2]
    rfl
  have he2 : b.objects.find? (fun x => x.object.id == id) = some e := he
  have heid : e.object.id = id := by simpa using List.find?_some he2
  constructor
  · intro hlow
    by_cases h1 : g1entry.object.object.permissions.get b.currentUser < AccessLevel.write
    · simp only [Backend.change_group, hgo, hperm1]
      rw [if_pos h1]
    · have h2 : g2entry.object.object.permissions.get b.currentUser < AccessLevel.write := by
        rcases hlow with hl | hl
        · exact absurd hl h1
        · exact hl
      simp only [Backend.change_group, hgo, hperm1, hperm2]
      rw [if_neg h1, if_pos h2]
  · intro hw1 hw2
    have hres : Backend.change_group mint b id g2 =
        (updateFirst (fun x => x.object.id == id)
          (fun x => ⟨g2, ⟨x.object.id, mint, x.object.object⟩⟩) b.objects, .ok ()) := by
      simp only [Backend.change_group, hgo, hperm1, hperm2]
      rw [if_neg ((AccessLevel.not_lt_iff _ _).mpr hw1),
        if_neg ((AccessLevel.not_lt_iff _ _).mpr hw2)]
      rfl
    refine ⟨by rw [hres], ?_⟩
    have hfind := updateFirst_find? (fun x : WithGroup (Versioned T) => x.object.id == id)
      (fun x => x.object.id == id)
      (fun x => ⟨g2, ⟨x.object.id, mint, x.object.object⟩⟩) b.objects e he2
      (by simp [heid]) (fun x hx => hx) (by simp [heid])
    have hgoal : collGet (Backend.change_group mint b id g2).1 id
        = some ⟨g2, ⟨e.object.id, mint, e.object.object⟩⟩ := by
      rw [hres]
      exact hfind
    rw [heid] at hgoal
    exact hgoal

/-- Witness for C6: user 1 has Write on group 10 but None on group 11, so
moving the object to group 11 fails Unauthorized with the state untouched;
moving it to group 10 (Write on both sides) succeeds and stores the minted
version 99 with the payload kept. -/
theorem facade_change_group_requires_write_witness :
    Backend.change_group 99 (⟨1, gsC, objsA⟩ : Backend Nat) 5 11
      = (objsA, .error .unauthorized) ∧
    collGet (Backend.change_group 99 (⟨1, gsC, objsA⟩ : Backend Nat) 5 10).1 5
      = some ⟨10, ⟨5, 99, 42⟩⟩ := by
  constructor
  · exact (facade_change_group_requires_write 99 (⟨1, gsC, objsA⟩ : Backend Nat)
      5 11 ⟨10, ⟨5, 77, 42⟩⟩ ⟨0, ⟨10, 0, grpRW⟩⟩ ⟨0, ⟨11, 0, grpNone⟩⟩
      rfl rfl rfl).1 (Or.inr (by decide))
  · exact ((facade_change_group_requires_write 99 (⟨1, gsC, objsA⟩ : Backend Nat)
      5 10 ⟨10, ⟨5, 77, 42⟩⟩ ⟨0, ⟨10, 0, grpRW⟩⟩ ⟨0, ⟨10, 0, grpRW⟩⟩
      rfl rfl rfl).2 (by decide) (by decide)).2

end Accounting
